/-
Verification of the offline-first caching and record-store engine of
enketo-express (eyelidlessness fork), against its natural-language
specification.

The development shallowly embeds the relevant JavaScript modules:

* `src/public/js/src/module/records/last-saved.js` (last-saved records)
* `src/public/js/src/module/form-cache.js`         (form definition cache)
* `src/config/build.js` (concatenated sources: the OpenRosa communicator)
* `src/public/js/src/module/url.js` (concatenated sources: the media-URL
  cache and the offline service worker)

Stateful code is embedded as explicit state passing: the browser-side
stores (IndexedDB record/survey stores, the CacheStorage partitions, the
in-memory media-URL cache) become pure values threaded through the
functions, and network/IndexedDB results that the JavaScript awaits
become explicit parameters (`Except`/`Option` values).
-/
import Mathlib

namespace Enketo

/-! ## The record store

A stored record, per the persisted local state of the spec:
`{recordId, surveyId, draft, name, xml, files[], order}`.  The browser
store keys records by `instanceId`; attachments and ordering are not
relevant to the claims and are represented by the `xml` payload only. -/

structure Record where
  instanceId : String
  enketoId : String
  name : String
  xml : String
  draft : Bool
deriving Repr, DecidableEq

/-- The record store: the contents of the IndexedDB `records` object
store, keyed by `instanceId`. -/
abbrev RecordStore := List Record

/-- `store.record.get(instanceId)`: the record stored under a key, if any. -/
def recordGet (records : RecordStore) (instanceId : String) : Option Record :=
  records.find? (fun r => r.instanceId = instanceId)

/-- `store.record.remove(instanceId)`: drop the record stored under a key. -/
def recordRemove (records : RecordStore) (instanceId : String) : RecordStore :=
  records.filter (fun r => r.instanceId ≠ instanceId)

/-- `store.record.set(record)`: add a record under its `instanceId`. -/
def recordSet (records : RecordStore) (r : Record) : RecordStore :=
  records ++ [r]

/-! ## module/records/last-saved.js -/

/-- `getLastSavedInstanceId( enketoId )`:
the deterministic last-saved sentinel key for a survey. -/
def getLastSavedInstanceId (enketoId : String) : String :=
  "__lastSaved_" ++ enketoId

/-- `getLastSavedRecord( enketoId )`: look the sentinel key up in the store. -/
def getLastSavedRecord (records : RecordStore) (enketoId : String) : Option Record :=
  recordGet records (getLastSavedInstanceId enketoId)

/-- `setLastSavedRecord( record )`.  `Date.now()` is passed in as `now`.
The JavaScript removes any record under the sentinel key, then stores the
payload (the input record with the internal name and the pre-defined key),
and resolves with `{ lastSaved, record }`. -/
def setLastSavedRecord (records : RecordStore) (record : Record) (now : Nat) :
    RecordStore × Record × Record :=
  let instanceId := getLastSavedInstanceId record.enketoId
  let payload : Record :=
    { record with
        name := "__lastSaved_" ++ toString now
        instanceId := instanceId }
  (recordSet (recordRemove records instanceId) payload, payload, record)

/-- `getAutoSavedKey()`.
Modelled from the spec: `getAutoSavedKey(surveyId)` lives in
`module/records/queue.js`, which is not among the sources; the spec says it
returns a deterministic sentinel id derived from the survey id, stable
across sessions, never colliding with user record ids. -/
def getAutoSavedKey (enketoId : String) : String :=
  "__autoSave_" ++ enketoId

/-- `uploadQueue()` record selection.
Modelled from the spec: `uploadQueue` lives in `module/records/queue.js`,
which is not among the sources; the spec says it iterates stored
non-draft, non-autosave records in queue order, and that the last-saved
sentinel is never uploaded. -/
def uploadQueueRecords (enketoId : String) (records : RecordStore) : List Record :=
  records.filter (fun r =>
    ¬ r.draft ∧
    r.instanceId ≠ getAutoSavedKey enketoId ∧
    r.instanceId ≠ getLastSavedInstanceId enketoId)

/-! ## module/form-cache.js

A cached survey, per the data model: surveyId (`enketoId`), content
`hash`, cached markup (`form`), cached data model (`model`), and the
resolved media `resources` (which `_updateCache` clears to `undefined` so
that media is refreshed on next load).  `encryptionEnabled` stands for
the encryption capability's `isEncryptionEnabled(survey)` flag. -/

structure Survey where
  enketoId : String
  hash : String
  form : String
  model : String
  resources : Option (List String)
  encryptionEnabled : Bool
deriving Repr, DecidableEq

/-- The survey store: the IndexedDB `surveys` object store, keyed by
`enketoId`, together with the record store it shares a database with. -/
structure BrowserStore where
  surveys : List Survey
  records : RecordStore
deriving Repr, DecidableEq

/-- `store.survey.get(enketoId)`. -/
def surveyGet (surveys : List Survey) (enketoId : String) : Option Survey :=
  surveys.find? (fun s => s.enketoId = enketoId)

/-- `store.survey.update(survey)`: replace the stored survey with the
same `enketoId`. -/
def surveyUpdate (surveys : List Survey) (s : Survey) : List Survey :=
  surveys.map (fun t => if t.enketoId = s.enketoId then s else t)

/-- `store.survey.remove(enketoId)` (via form-cache's `remove(survey)`). -/
def surveyRemove (surveys : List Survey) (enketoId : String) : List Survey :=
  surveys.filter (fun s => s.enketoId ≠ enketoId)

/-- `isLastSaveEnabled( survey )`.
Modelled from the spec: this helper lives in `module/last-saved.js`
(imported by form-cache.js), which is not among the sources; the spec
says last-saved snapshots are never created for encryption-enabled
surveys, so last-save is enabled exactly when encryption is not. -/
def isLastSaveEnabled (s : Survey) : Bool :=
  ¬ s.encryptionEnabled

/-- `removeLastSavedRecord( enketoId )`.
Modelled from the spec: this helper lives in `module/last-saved.js`
(imported by form-cache.js), which is not among the sources; it removes
the record stored under the survey's deterministic last-saved sentinel id
(the id function is `getLastSavedInstanceId` from
`module/records/last-saved.js`, which is among the sources). -/
def removeLastSavedRecord (records : RecordStore) (enketoId : String) : RecordStore :=
  recordRemove records (getLastSavedInstanceId enketoId)

/-- `updateSurveyCache( survey )` in form-cache.js: when last-save is not
enabled for the updated survey, first remove its last-saved record, then
update the survey store. -/
def updateSurveyCache (st : BrowserStore) (s : Survey) : BrowserStore :=
  { surveys := surveyUpdate st.surveys s
    records := if isLastSaveEnabled s then st.records
               else removeLastSavedRecord st.records s.enketoId }

/-- Notifications dispatched on `document` by form-cache.js.
`formUpdated` is `events.FormUpdated()`; `removed` stands for the
*removed* notification the spec describes for evicted surveys (the code
has no corresponding event constructor). -/
inductive FormCacheEvent where
  | formUpdated
  | removed
deriving Repr, DecidableEq

/-- The `.catch` branch of `_updateCache`: a 404 or 401 failure removes
the survey from the store (and only logs); any other failure is
swallowed.  No event is dispatched on either path. -/
def updateCacheCatch (st : BrowserStore) (hash : Option String) (survey : Survey)
    (status : Nat) : BrowserStore × Option String × List FormCacheEvent :=
  if status = 404 ∨ status = 401 then
    ({ st with surveys := surveyRemove st.surveys survey.enketoId }, hash, [])
  else
    (st, hash, [])

/-- `_updateCache( survey )` in form-cache.js.

State passed explicitly: the browser store `st` and the module-level
`hash` variable.  The awaited network results are parameters:
`hashResp` is `connection.getFormPartsHash(survey)` (`.error status` when
it rejects) and `partsResp` is `connection.getFormParts(survey)` (only
consulted when the hashes differ).  Returns the new store, the new value
of the module-level `hash`, and the dispatched events. -/
def updateCache (st : BrowserStore) (hash : Option String) (survey : Survey)
    (hashResp : Except Nat String) (partsResp : Except Nat Survey) :
    BrowserStore × Option String × List FormCacheEvent :=
  match hashResp with
  | .error status => updateCacheCatch st hash survey status
  | .ok version =>
    if hash = some version then
      (st, hash, [])
    else
      match partsResp with
      | .error status => updateCacheCatch st hash survey status
      | .ok formParts =>
        -- media will be updated next time the form is loaded if resources is undefined
        let formParts := { formParts with resources := none }
        let st := updateSurveyCache st formParts
        -- set the hash so that subsequent update checks won't redownload the form
        let hash := some formParts.hash
        let st :=
          if ¬ isLastSaveEnabled formParts then
            { st with records := removeLastSavedRecord st.records formParts.enketoId }
          else st
        (st, hash, [FormCacheEvent.formUpdated])

/-! ## The OpenRosa communicator (concatenated into src/config/build.js)

`_xmlToJson` parses the server's XML with xml2js; with the default parser
options every child element becomes an array of values, which
`_simplifyFormObj` collapses back to strings.  The embedding starts from
the parsed shape: raw objects carry each property as a list of strings
(xml2js produces singleton lists for the once-per-node elements of
formList/manifest documents). -/

/-- One `<xform>` entry of a formList document, as parsed by xml2js:
each child element is an array of strings. -/
structure RawXForm where
  formID : List String
  name : List String
  hash : List String
  downloadUrl : List String
  manifestUrl : List String
deriving Repr, DecidableEq

/-- Form info after `_simplifyFormObj`: array-valued properties replaced
by their (only) element's string value. -/
structure FormInfo where
  formID : String
  name : String
  hash : String
  downloadUrl : String
  manifestUrl : String
deriving Repr, DecidableEq

/-- `_simplifyFormObj` on an xform entry: take each array property's
first element as a string (each xml node occurs once per xform node). -/
def simplifyXForm (x : RawXForm) : FormInfo :=
  { formID := x.formID.headD ""
    name := x.name.headD ""
    hash := x.hash.headD ""
    downloadUrl := x.downloadUrl.headD ""
    manifestUrl := x.manifestUrl.headD "" }

/-- `xform.formID.toString()`: a JavaScript array's `toString` joins its
elements with commas; for the singleton arrays xml2js produces this is
the element itself. -/
def formIDString (x : RawXForm) : String :=
  String.intercalate "," x.formID

/-- `_findFormAddInfo( formListXml, survey )`, after `_xmlToJson`.

`formListObj.xforms.xform` is `some xforms` when the parsed document has
the xforms/xform structure, else `none`.  The JavaScript walks the array
with `Array.prototype.some`, remembering the index, so on success the
info is the first entry whose `formID` string-equals `survey.openRosaId`;
otherwise it rejects with a 404 `TranslatedError`
(`error.notfoundinformlist`). -/
def findFormAddInfo (formListObj : Option (List RawXForm)) (openRosaId : String) :
    Except Nat FormInfo :=
  let found :=
    match formListObj with
    | none => none
    | some xforms => xforms.find? (fun x => formIDString x = openRosaId)
  match found with
  | none => .error 404
  | some x => .ok (simplifyXForm x)

/-- One `<mediaFile>` entry of a manifest document, as parsed by xml2js. -/
structure RawMediaFile where
  filename : List String
  hash : List String
  downloadUrl : List String
deriving Repr, DecidableEq

/-- A manifest entry after `_simplifyFormObj`. -/
structure MediaFile where
  filename : String
  hash : String
  downloadUrl : String
deriving Repr, DecidableEq

/-- `_simplifyFormObj` on a mediaFile entry. -/
def simplifyMediaFile (f : RawMediaFile) : MediaFile :=
  { filename := f.filename.headD ""
    hash := f.hash.headD ""
    downloadUrl := f.downloadUrl.headD "" }

/-- The parsed manifest document: `obj.manifest && obj.manifest.mediaFile`
is `some files` when the manifest/mediaFile structure is present, and
`none` when the document is malformed (no such structure). -/
structure ManifestDoc where
  mediaFile : Option (List RawMediaFile)
deriving Repr, DecidableEq

/-- `survey.info` as `getManifest` consumes it: possibly absent, with a
`manifestUrl` that may be empty (JavaScript falsy). -/
structure SurveyInfo where
  manifestUrl : String
  downloadUrl : String
deriving Repr, DecidableEq

/-- `getManifest( survey )` (the undici variant of the communicator).

When `survey.info == null || !survey.info.manifestUrl` it resolves with
an empty manifest without any request.  Otherwise the awaited
`openRosaRequest` + `_xmlToJson` result is the parameter `resp`:
`.error status` when the request or the XML parse rejects, `.ok obj`
when a document was parsed.  On success the manifest is the parsed
`mediaFile` entries, simplified, in document order, or `[]` when the
structure is absent. -/
def getManifest (info : Option SurveyInfo) (resp : Except Nat ManifestDoc) :
    Except Nat (List MediaFile) :=
  match info with
  | none => .ok []
  | some i =>
    if i.manifestUrl = "" then
      .ok []
    else
      match resp with
      | .error status => .error status
      | .ok obj =>
        match obj.mediaFile with
        | some files => .ok (files.map simplifyMediaFile)
        | none => .ok []

/-! ## The offline service worker (concatenated into src/public/js/src/module/url.js)

The worker is event-driven with no shared memory; its state is the
browser CacheStorage (named cache partitions of url-keyed response
snapshots) plus whether it has claimed the open pages.  Fetches the
worker awaits become explicit parameters. -/

/-- The response fields the worker inspects: `status`, `type`, the body
(identifying the snapshot), and the result of `(await response.json()).hash`
(`none` when `.json()` throws, `some h` with the optional hash field). -/
inductive SWResponseType where
  | basic
  | default
  | cors
  | error
  | opaqueResponse
  | opaqueredirect
deriving Repr, DecidableEq

structure SWResponse where
  status : Nat
  rtype : SWResponseType
  body : String
  jsonHash : Option (Option String)
deriving Repr, DecidableEq

/-- A named cache partition: url-keyed response snapshots, in insertion
order. -/
abbrev CachePartition := List (String × SWResponse)

/-- The CacheStorage: named partitions in creation order. -/
abbrev SWCacheStorage := List (String × CachePartition)

def FORMS_CACHE : String := "enketo-forms"

def STATIC_CACHE : String := "enketo-common"

/-- `caches.match(url)`: scan the partitions in order for an entry under
the url. -/
def cachesMatch (cs : SWCacheStorage) (url : String) : Option SWResponse :=
  cs.findSome? (fun c => (c.2.find? (fun e => e.1 = url)).map (fun e => e.2))

/-- `cache.put(url, response)` within one partition: overwrite the entry
under the url (cache keys are unique), or append it. -/
def partitionPut : CachePartition → String → SWResponse → CachePartition
  | [], url, resp => [(url, resp)]
  | e :: es, url, resp =>
    if e.1 = url then (url, resp) :: es else e :: partitionPut es url resp

/-- `caches.open(name)` followed by `cache.put(url, response)`: open (or
create, appended last) the named partition (partition names are unique)
and put the entry. -/
def cachesOpenPut : SWCacheStorage → String → String → SWResponse → SWCacheStorage
  | [], name, url, resp => [(name, partitionPut [] url resp)]
  | c :: cs, name, url, resp =>
    if c.1 = name then (name, partitionPut c.2 url resp) :: cs
    else c :: cachesOpenPut cs name url resp

/-- Direct lookup in one named partition (for stating which partition an
entry landed in). -/
def cacheGet (cs : SWCacheStorage) (name url : String) : Option SWResponse :=
  match cs.find? (fun c => c.1 = name) with
  | none => none
  | some c => (c.2.find? (fun e => e.1 = url)).map (fun e => e.2)

/-- Is `pre` a prefix of `l`?  The character-level workhorse for the
string tests of the JavaScript (`startsWith`, `endsWith`, splitting).
The standard library versions recurse on string positions and are
replaced by these structurally recursive ones so that concrete
instances evaluate. -/
def charsHead : List Char → List Char → Bool
  | [], _ => true
  | _ :: _, [] => false
  | a :: pre, b :: l => a = b && charsHead pre l

/-- JavaScript `s.startsWith(pre)`. -/
def strStartsWith (s pre : String) : Bool :=
  charsHead pre.data s.data

/-- JavaScript `s.endsWith(suf)`. -/
def strEndsWith (s suf : String) : Bool :=
  charsHead suf.data.reverse s.data.reverse

/-- The index of the first occurrence of `sep` in the list, if any. -/
def firstMatchIdx (sep : List Char) : List Char → Option Nat
  | [] => none
  | c :: rest =>
    if charsHead sep (c :: rest) then some 0
    else (firstMatchIdx sep rest).map (fun i => i + 1)

/-- Split at every occurrence of `sep`, fuelled by the list length (each
step consumes at least one character, so the fuel never runs out for
the wrapper below). -/
def splitOnAux (sep : List Char) : Nat → List Char → List (List Char)
  | 0, l => [l]
  | fuel + 1, l =>
    match firstMatchIdx sep l with
    | none => [l]
    | some i => l.take i :: splitOnAux sep fuel (l.drop (i + sep.length))

/-- Split a string at every occurrence of a non-empty separator
(JavaScript `s.split(sep)`). -/
def splitOnStr (s sep : String) : List String :=
  if sep = "" then [s]
  else (splitOnAux sep.data s.data.length s.data).map (fun l => String.mk l)

/-- Does `s` contain `sub` as a substring?  (JavaScript regex `.test` on
fixed alternatives is expressed through this.) -/
def containsSub (s sub : String) : Bool :=
  (splitOnStr s sub).length > 1

/-- `cacheStorageKey(url)`: the partition a url is cached in.  The static
partition holds the favicon, the form shell base path and the listed
asset directories plus the worker script; everything else is per-survey
forms content. -/
def cacheStorageKey (url : String) : String :=
  if url = "/favicon.ico" ∨
     strEndsWith url "/x/" ∨
     containsSub url "/x/css/" ∨
     containsSub url "/x/fonts/" ∨
     containsSub url "/x/images/" ∨
     containsSub url "/x/js/" ∨
     containsSub url "/x/locales/" ∨
     containsSub url "/x/offline-app-worker.js" then
    STATIC_CACHE
  else
    FORMS_CACHE

/-- `cacheResponse(key, response)`: put the response snapshot into the
partition `cacheStorageKey` assigns to the key. -/
def cacheResponse (cs : SWCacheStorage) (key : String) (resp : SWResponse) :
    SWCacheStorage :=
  cachesOpenPut cs (cacheStorageKey key) key resp

/-- `removeStaleCaches()`: delete every partition whose name is not the
current forms partition. -/
def removeStaleCaches (cs : SWCacheStorage) : SWCacheStorage :=
  cs.filter (fun c => c.1 = FORMS_CACHE)

/-- Worker lifecycle state: the CacheStorage plus whether
`self.clients.claim()` has run (control of the open pages). -/
structure WorkerState where
  cacheStorage : SWCacheStorage
  controlled : Bool
deriving Repr, DecidableEq

/-- `onActivate()`: remove stale caches, then claim the clients. -/
def onActivate (ws : WorkerState) : WorkerState :=
  { cacheStorage := removeStaleCaches ws.cacheStorage
    controlled := true }

/-- JavaScript `String.prototype.replace` with a plain first occurrence. -/
def replaceFirst (s pat sub : String) : String :=
  match splitOnStr s pat with
  | [] => s
  | [_] => s
  | h :: t => h ++ sub ++ String.intercalate pat t

/-- The reply types of the form-update message protocol. -/
inductive SWMessageType where
  | FORM_UPDATED
  | FORM_UP_TO_DATE
  | FORM_UPDATE_UNKNOWN
deriving Repr, DecidableEq

/-- A `client.postMessage` payload `{ type, enketoId }`. -/
structure SWMessage where
  type : SWMessageType
  enketoId : String
deriving Repr, DecidableEq

/-- `checkFormHash(client, enketoId, url)`.

The awaited `fetch(hashURL, FETCH_OPTIONS)` is the parameter
`fetchResult` (`none` when the fetch throws).  Returns the message
posted to the client, or `none` when the function returns without
posting (fresh hash response or cached transform response absent). -/
def checkFormHash (cs : SWCacheStorage) (enketoId url : String)
    (fetchResult : Option SWResponse) : Option SWMessage :=
  let hashURL := replaceFirst url "/x/" "/transform/xform/hash/"
  let transformURL := replaceFirst hashURL "/hash/" "/"
  match fetchResult with
  | none => some ⟨.FORM_UPDATE_UNKNOWN, enketoId⟩
  | some hashResponse =>
    match cachesMatch cs transformURL with
    | none => none
    | some cachedResponse =>
      match hashResponse.jsonHash, cachedResponse.jsonHash with
      | some hash, some cached =>
        let isStale : Bool := cached.isNone ∨ hash.isNone ∨ hash ≠ cached
        some ⟨if isStale then .FORM_UPDATED else .FORM_UP_TO_DATE, enketoId⟩
      | _, _ => some ⟨.FORM_UPDATE_UNKNOWN, enketoId⟩

/-- The `message` listener: only a well-formed
`{CHECK_FORM_HASH, enketoId, url}` payload triggers the check. -/
def onMessage (cs : SWCacheStorage) (msgType enketoId url : String)
    (fetchResult : Option SWResponse) : Option SWMessage :=
  if msgType = "CHECK_FORM_HASH" then
    checkFormHash cs enketoId url fetchResult
  else
    none

/-- The request fields `onFetch` inspects.  The fetch listener already
filtered to same-origin GET requests.  `url` is the full href,
`pathname` the path component of `new URL(url)`. -/
structure SWRequest where
  url : String
  pathname : String
  referrer : String
deriving Repr, DecidableEq

/-- The JavaScript regex test `/\/x\/[^\/]+\/?$/.test(pathname)`: the
path ends in a form-shell segment `/x/{id}`, optionally with one
trailing slash. -/
def isFormPagePath (pathname : String) : Bool :=
  let s := if strEndsWith pathname "/" then pathname.dropRight 1 else pathname
  match (splitOnStr s "/").reverse with
  | seg :: x :: _ :: _ => seg ≠ "" ∧ x = "x"
  | _ => false

/-- `url.replace(/\/x\/.*/, '/x/')`: everything from the first `/x/`
onward replaced by `/x/` (the normalized shell cache key). -/
def formPageCacheKey (url : String) : String :=
  match splitOnStr url "/x/" with
  | [] => url
  | [_] => url
  | h :: _ => h ++ "/x/"

/-- The sentinel entry: `new Response(null, { status: 204,
statusText: 'No Content' })`. -/
def sentinelResponse : SWResponse :=
  { status := 204, rtype := .default, body := "", jsonHash := none }

/-- `cachePrefetchURLs(response)`: the urls named by the link header with
`rel="prefetch"` are fetched and added to the static partition;
`Promise.allSettled` drops the failures.  The successfully fetched
(url, response) pairs are the parameter. -/
def cachePrefetchURLs (cs : SWCacheStorage)
    (prefetched : List (String × SWResponse)) : SWCacheStorage :=
  prefetched.foldl (fun acc e => cachesOpenPut acc STATIC_CACHE e.1 e.2) cs

/-- `onFetch(request)` of the offline app worker (the current,
exported variant).

Parameters for the awaited effects: `net` is `fetch(request,
FETCH_OPTIONS)` (`none` when it throws, i.e. offline), `swScriptURL` is
`self.serviceWorker.scriptURL`, and `prefetched` feeds
`cachePrefetchURLs` when the request is for the worker script itself.
`ENV` is taken to be the production build (so no forced refetch).

Returns the response given to `event.respondWith`, the CacheStorage
afterwards, and whether the network was consulted. -/
def onFetch (swScriptURL : String) (r : SWRequest) (cs : SWCacheStorage)
    (net : Option SWResponse) (prefetched : List (String × SWResponse)) :
    Option SWResponse × SWCacheStorage × Bool :=
  let isFormPageRequest : Bool :=
    isFormPagePath r.pathname ∧ (r.referrer = "" ∨ r.referrer = r.url)
  let cacheKey := if isFormPageRequest then formPageCacheKey r.url else r.url
  let cached := cachesMatch cs cacheKey
  let response := match cached with
    | some c => some c
    | none => net
  let usedNetwork := cached.isNone
  match response with
  | none => (none, cs, usedNetwork)
  | some resp =>
    if resp.status ≠ 200 ∨ (resp.rtype ≠ .basic ∧ resp.rtype ≠ .default) then
      (some resp, cs, usedNetwork)
    else if isFormPageRequest ∧ resp.status = 204 then
      -- dead in practice (the 200 guard above), kept to mirror the source
      (cachesMatch cs cacheKey, cs, usedNetwork)
    else
      let cs := if isFormPageRequest then cacheResponse cs r.url sentinelResponse else cs
      let cs := if r.url = swScriptURL then cachePrefetchURLs cs prefetched else cs
      let cs := cacheResponse cs cacheKey resp
      (some resp, cs, usedNetwork)

/-! ## The media-URL cache (src/public/js/src/module/url.js, first part)

`URL.createObjectURL` mints a globally fresh `blob:` URL each time it is
invoked; the embedding models this with a counter in the state and an
injective encoding of counter values as `blob:` URL strings. -/

/-- The fresh `blob:` object URL minted for counter value `k`. -/
def objectURL (k : Nat) : String :=
  "blob:" ++ String.mk (List.replicate k 'b')

/-- The module state: the `mediaURLCache` map and the object-URL
counter. -/
structure MediaURLState where
  cache : List (String × String)
  nextObjectURL : Nat
deriving Repr, DecidableEq

/-- `Map.prototype.get`. -/
def mapGet (m : List (String × String)) (k : String) : Option String :=
  (m.find? (fun e => e.1 = k)).map (fun e => e.2)

/-- `Map.prototype.set`: overwrite the entry under the key (map keys are
unique), or append it. -/
def mapSet : List (String × String) → String → String → List (String × String)
  | [], k, v => [(k, v)]
  | e :: es, k, v =>
    if e.1 = k then (k, v) :: es else e :: mapSet es k v

/-- `resetMediaURLCache()`: revoke every cached object URL and start a
new empty map.  (Revocation does not reuse URL values: the counter is
kept.) -/
def resetMediaURLCache (st : MediaURLState) : MediaURLState :=
  { st with cache := [] }

/-- `dataURLToBlobURL(mediaMapKey, dataURL)`: return the cached
conversion if present; otherwise decode the `data:` URL into a Blob,
mint a fresh object URL for it, and cache it under both the map key and
the `data:` URL itself. -/
def dataURLToBlobURL (st : MediaURLState) (mediaMapKey dataURL : String) :
    String × MediaURLState :=
  match mapGet st.cache dataURL with
  | some cached => (cached, st)
  | none =>
    let blobURL := objectURL st.nextObjectURL
    (blobURL,
     { cache := mapSet (mapSet st.cache mediaMapKey blobURL) dataURL blobURL
       nextObjectURL := st.nextObjectURL + 1 })

/-- `url.replace(/^jr:.*\/([^\/]+)$/, '$1')`: for a `jr:` URL ending in
a file name, that file name; otherwise the url unchanged. -/
def jrFileName (url : String) : String :=
  let parts := splitOnStr url "/"
  if strStartsWith url "jr:" ∧ parts.length ≥ 2 ∧ parts.getLastD "" ≠ "" then
    parts.getLastD ""
  else
    url

/-- `getMediaURL(url)`: `blob:` URLs pass through; otherwise consult the
cache; on a miss, convert a `data:` URL (caching the result), or fall
back to the cached entry for the `jr:` file name (possibly absent). -/
def getMediaURL (st : MediaURLState) (url : String) : Option String × MediaURLState :=
  if strStartsWith url "blob:" then
    (some url, st)
  else
    match mapGet st.cache url with
    | some result => (some result, st)
    | none =>
      if strStartsWith url "data:" then
        let r := dataURLToBlobURL st url url
        (some r.1, r.2)
      else
        (mapGet st.cache (jrFileName url), st)

/-- The reachability invariant of the media-URL state: every cached value
that is an object URL was minted by an earlier counter value.  (True of
the states the module can reach: `URL.createObjectURL` never returns a
previously minted URL.) -/
def MediaWF (st : MediaURLState) : Prop :=
  ∀ p ∈ st.cache, ∀ k, p.2 = objectURL k → k < st.nextObjectURL

/-! ## Concrete fixtures (used by witnesses and counterexamples) -/

/-- A cached survey `a` at hash abc123, encryption off. -/
def surveyA : Survey :=
  { enketoId := "a", hash := "abc123", form := "<f/>", model := "<m/>",
    resources := some [], encryptionEnabled := false }

/-- The re-fetched definition of survey `a` at hash def456, encryption off. -/
def surveyA2 : Survey :=
  { enketoId := "a", hash := "def456", form := "<f2/>", model := "<m2/>",
    resources := some ["r"], encryptionEnabled := false }

/-- The re-fetched definition of survey `a` at hash def456 with
encryption enabled. -/
def surveyA2Enc : Survey :=
  { enketoId := "a", hash := "def456", form := "<f2/>", model := "<m2/>",
    resources := none, encryptionEnabled := true }

/-- A last-saved sentinel record of survey `a`. -/
def lastSavedRecA : Record :=
  { instanceId := "__lastSaved_a", enketoId := "a", name := "n",
    xml := "<x/>", draft := false }

/-- An ordinary queued record of survey `a`. -/
def userRecA : Record :=
  { instanceId := "r1", enketoId := "a", name := "n", xml := "<x/>",
    draft := false }

/-- A formList entry with formID f1. -/
def rawXFormA : RawXForm :=
  { formID := ["f1"], name := ["Form A"], hash := ["h1"],
    downloadUrl := ["dA"], manifestUrl := ["mA"] }

/-- A second, distinct formList entry with the same formID f1. -/
def rawXFormB : RawXForm :=
  { formID := ["f1"], name := ["Form B"], hash := ["h2"],
    downloadUrl := ["dB"], manifestUrl := ["mB"] }

/-- A manifest mediaFile entry. -/
def rawMediaA : RawMediaFile :=
  { filename := ["a.png"], hash := ["md5:1"], downloadUrl := ["https://ex/a.png"] }

/-- Survey info carrying a manifest URL. -/
def infoWithManifest : SurveyInfo :=
  { manifestUrl := "https://ex/manifest", downloadUrl := "https://ex/download" }

/-- A fresh hash response whose json reads `{hash: "123a5"}`. -/
def hashResp : SWResponse :=
  { status := 200, rtype := .basic, body := "", jsonHash := some (some "123a5") }

/-- A cached form shell response snapshot. -/
def shellResp : SWResponse :=
  { status := 200, rtype := .basic, body := "<html>shell</html>", jsonHash := none }

/-- A concrete same-origin form page request (empty referrer, as for a
top-level navigation). -/
def formPageReq : SWRequest :=
  { url := "https://example.com/-/x/abc", pathname := "/-/x/abc", referrer := "" }

/-- The worker script URL of the concrete scenario. -/
def swScriptURLFix : String :=
  "https://example.com/-/x/offline-app-worker.js"

/-! ## Helper lemmas -/

theorem countP_filter_ne_eq_zero (l : RecordStore) (id : String) :
    (l.filter (fun r => r.instanceId ≠ id)).countP
      (fun r => decide (r.instanceId = id)) = 0 := by
  rw [List.countP_eq_zero]
  intro a ha
  rw [List.mem_filter] at ha
  simpa using ha.2

theorem find?_filter_ne_eq_none (l : RecordStore) (id : String) :
    (l.filter (fun r => r.instanceId ≠ id)).find?
      (fun r => decide (r.instanceId = id)) = none := by
  rw [List.find?_eq_none]
  intro a ha
  rw [List.mem_filter] at ha
  simpa using ha.2

theorem surveyGet_surveyUpdate_self (ss : List Survey) (s t : Survey)
    (h : surveyGet ss s.enketoId = some t) :
    surveyGet (surveyUpdate ss s) s.enketoId = some s := by
  unfold surveyGet surveyUpdate at *
  rw [List.find?_map]
  have hpred :
      ((fun u : Survey => decide (u.enketoId = s.enketoId)) ∘
        fun u : Survey => if u.enketoId = s.enketoId then s else u) =
      fun u : Survey => decide (u.enketoId = s.enketoId) := by
    funext u
    by_cases hu : u.enketoId = s.enketoId <;> simp [hu]
  rw [hpred, h]
  have ht : t.enketoId = s.enketoId := by
    have := List.find?_some h
    simpa using this
  simp [Function.comp, ht]

theorem surveyGet_surveyUpdate_other (ss : List Survey) (s : Survey) (e : String)
    (hne : e ≠ s.enketoId) :
    surveyGet (surveyUpdate ss s) e = surveyGet ss e := by
  unfold surveyGet surveyUpdate
  rw [List.find?_map]
  have hpred :
      ((fun u : Survey => decide (u.enketoId = e)) ∘
        fun u : Survey => if u.enketoId = s.enketoId then s else u) =
      fun u : Survey => decide (u.enketoId = e) := by
    funext u
    by_cases hu : u.enketoId = s.enketoId
    · simp [hu, Ne.symm hne]
    · simp [hu]
  rw [hpred]
  cases hf : ss.find? (fun u : Survey => decide (u.enketoId = e)) with
  | none => simp
  | some a =>
    have ha : a.enketoId = e := by
      have := List.find?_some hf
      simpa using this
    have hns : ¬ (a.enketoId = s.enketoId) := by
      rw [ha]
      exact hne
    simp [hns]

theorem surveyGet_surveyRemove_self (ss : List Survey) (eid : String) :
    surveyGet (surveyRemove ss eid) eid = none := by
  unfold surveyGet surveyRemove
  rw [List.find?_eq_none]
  intro a ha
  rw [List.mem_filter] at ha
  simpa using ha.2

theorem surveyGet_surveyRemove_other (ss : List Survey) (eid e : String)
    (hne : e ≠ eid) :
    surveyGet (surveyRemove ss eid) e = surveyGet ss e := by
  unfold surveyGet surveyRemove
  induction ss with
  | nil => simp
  | cons a ss ih =>
    by_cases ha : a.enketoId = eid
    · have hae : ¬ (a.enketoId = e) := fun h => hne (h ▸ ha)
      simpa [List.filter_cons, List.find?_cons, ha, hae, Ne.symm hne] using ih
    · by_cases hae : a.enketoId = e
      · simp [List.filter_cons, List.find?_cons, ha, hae, hne, Ne.symm hne]
      · simpa [List.filter_cons, List.find?_cons, ha, hae, hne, Ne.symm hne] using ih

theorem find?_filter_same (l : SWCacheStorage) (name : String) :
    (l.filter (fun c => c.1 = name)).find? (fun c => c.1 = name)
      = l.find? (fun c => c.1 = name) := by
  induction l with
  | nil => rfl
  | cons a l ih =>
    by_cases ha : a.1 = name
    · simp [List.filter_cons, List.find?_cons, ha]
    · simpa [List.filter_cons, List.find?_cons, ha] using ih

theorem find?_filter_other (l : SWCacheStorage) (keep name : String)
    (hne : name ≠ keep) :
    (l.filter (fun c => c.1 = keep)).find? (fun c => c.1 = name) = none := by
  rw [List.find?_eq_none]
  intro a ha
  rw [List.mem_filter] at ha
  have h1 : a.1 = keep := by simpa using ha.2
  simp [h1, Ne.symm hne]

theorem find?_partitionPut_self (es : CachePartition) (url : String)
    (resp : SWResponse) :
    (partitionPut es url resp).find? (fun e => e.1 = url) = some (url, resp) := by
  induction es with
  | nil => simp [partitionPut, List.find?_cons]
  | cons e es ih =>
    by_cases he : e.1 = url
    · simp [partitionPut, he, List.find?_cons]
    · simpa [partitionPut, he, List.find?_cons] using ih

theorem cacheGet_cachesOpenPut_self (cs : SWCacheStorage) (name url : String)
    (resp : SWResponse) :
    cacheGet (cachesOpenPut cs name url resp) name url = some resp := by
  induction cs with
  | nil =>
    simp [cachesOpenPut, cacheGet, List.find?_cons, find?_partitionPut_self]
  | cons c cs ih =>
    by_cases hc : c.1 = name
    · simp [cachesOpenPut, hc, cacheGet, List.find?_cons, find?_partitionPut_self]
    · simpa [cachesOpenPut, hc, cacheGet, List.find?_cons] using ih

theorem cacheGet_cachesOpenPut_other (cs : SWCacheStorage)
    (name name' url url' : String) (resp : SWResponse) (hne : name' ≠ name) :
    cacheGet (cachesOpenPut cs name url resp) name' url' = cacheGet cs name' url' := by
  induction cs with
  | nil => simp [cachesOpenPut, cacheGet, List.find?_cons, Ne.symm hne, hne]
  | cons c cs ih =>
    by_cases hc : c.1 = name
    · have hcn : ¬ (c.1 = name') := by
        rw [hc]
        exact Ne.symm hne
      simp [cachesOpenPut, hc, cacheGet, List.find?_cons, hcn, Ne.symm hne]
    · by_cases hcn : c.1 = name'
      · simp [cachesOpenPut, hc, cacheGet, List.find?_cons, hcn, hne]
      · simpa [cachesOpenPut, hc, cacheGet, List.find?_cons, hcn] using ih

theorem mapGet_mapSet_self (m : List (String × String)) (k v : String) :
    mapGet (mapSet m k v) k = some v := by
  induction m with
  | nil => simp [mapSet, mapGet, List.find?_cons]
  | cons e es ih =>
    by_cases he : e.1 = k
    · simp [mapSet, he, mapGet, List.find?_cons]
    · simpa [mapSet, he, mapGet, List.find?_cons] using ih

theorem objectURL_injective {k k' : Nat} (h : objectURL k = objectURL k') :
    k = k' := by
  have hlen := congrArg String.length h
  simpa [objectURL, String.length_append, String.length] using hlen

/-! ## Claim theorems -/

theorem removeLastSavedRecord_idem (l : RecordStore) (e : String) :
    removeLastSavedRecord (removeLastSavedRecord l e) e = removeLastSavedRecord l e := by
  simp [removeLastSavedRecord, recordRemove, List.filter_filter]

/-- C1 (amended): when the scheduled freshness check obtains a server
hash different from the cached one, it re-fetches the full form
definition, replaces the cached definition in the survey store (with the
media resources cleared, leaving other surveys untouched), updates the
module hash, and emits exactly one form-updated event; every stored
record is left untouched when the new definition keeps last-save
enabled, while the last-saved sentinel record is removed when the new
definition has encryption enabled. -/
theorem c1_hash_change_replaces_definition
    (st : BrowserStore) (H V : String) (survey formParts : Survey)
    (hne : H ≠ V)
    (hid : formParts.enketoId = survey.enketoId)
    (hmem : surveyGet st.surveys survey.enketoId = some survey) :
    surveyGet (updateCache st (some H) survey (.ok V) (.ok formParts)).1.surveys
        survey.enketoId = some { formParts with resources := none } ∧
    (∀ e, e ≠ survey.enketoId →
      surveyGet (updateCache st (some H) survey (.ok V) (.ok formParts)).1.surveys e
        = surveyGet st.surveys e) ∧
    (updateCache st (some H) survey (.ok V) (.ok formParts)).2.1 = some formParts.hash ∧
    (updateCache st (some H) survey (.ok V) (.ok formParts)).2.2
      = [FormCacheEvent.formUpdated] ∧
    (isLastSaveEnabled formParts = true →
      (updateCache st (some H) survey (.ok V) (.ok formParts)).1.records = st.records) ∧
    (isLastSaveEnabled formParts = false →
      (updateCache st (some H) survey (.ok V) (.ok formParts)).1.records
        = removeLastSavedRecord st.records formParts.enketoId) := by
  have hHV : ¬ ((some H : Option String) = some V) := by simpa using hne
  have hshape : updateCache st (some H) survey (.ok V) (.ok formParts)
      = ({ surveys := surveyUpdate st.surveys { formParts with resources := none }
           records :=
             if isLastSaveEnabled { formParts with resources := none } then st.records
             else removeLastSavedRecord
               (removeLastSavedRecord st.records formParts.enketoId) formParts.enketoId },
         some formParts.hash, [FormCacheEvent.formUpdated]) := by
    by_cases hle : isLastSaveEnabled { formParts with resources := none } = true
    · simp [updateCache, hHV, updateSurveyCache, hle]
    · simp only [Bool.not_eq_true] at hle
      simp [updateCache, hHV, updateSurveyCache, hle]
  refine ⟨?_, ?_, ?_, ?_, ?_, ?_⟩
  · rw [hshape]
    have h1 : surveyGet st.surveys
        ({ formParts with resources := none } : Survey).enketoId = some survey := by
      simpa [hid] using hmem
    have h2 := surveyGet_surveyUpdate_self st.surveys
      { formParts with resources := none } survey h1
    simpa [hid] using h2
  · intro e he
    rw [hshape]
    exact surveyGet_surveyUpdate_other st.surveys _ e (by simpa [hid] using he)
  · rw [hshape]
  · rw [hshape]
  · intro hle
    rw [hshape]
    simp [isLastSaveEnabled] at hle ⊢
    simp [hle]
  · intro hle
    rw [hshape]
    simp [isLastSaveEnabled] at hle ⊢
    simp [hle, removeLastSavedRecord_idem]

/-- C1 witness: the amended theorem applied at a concrete survey whose
hash moved from abc123 to def456, with last-save still enabled. -/
theorem c1_hash_change_replaces_definition_witness :
    surveyGet
      (updateCache { surveys := [surveyA], records := [] }
        (some "abc123") surveyA (.ok "def456") (.ok surveyA2)).1.surveys
      "a"
    = some { surveyA2 with resources := none } :=
  (c1_hash_change_replaces_definition
    { surveys := [surveyA], records := [] }
    "abc123" "def456" surveyA surveyA2
    (by decide) (by decide) (by decide)).1

/-- C1 counterexample: the claim says every stored record is left
untouched, but when the re-fetched definition has encryption enabled the
update removes the last-saved sentinel record: starting from a store
holding one record (the last-saved snapshot of survey a), the record
store is empty after the update. -/
theorem c1_counterexample_lastSaved_removed :
    (updateCache { surveys := [surveyA], records := [lastSavedRecA] }
      (some "abc123") surveyA (.ok "def456") (.ok surveyA2Enc)).1.records
    = [] := by
  decide

/-- C6 (amended): when the freshness hash request fails with 404 or 401
the cached survey definition is evicted (other surveys and all stored
records untouched, module hash kept) and no notification event is
emitted (the code only logs); any other failure is swallowed, leaving
store, hash and events unchanged, to be retried at the next interval. -/
theorem c6_hash_failure_eviction
    (st : BrowserStore) (h : Option String) (survey : Survey) (status : Nat)
    (partsResp : Except Nat Survey) :
    (status = 404 ∨ status = 401 →
      surveyGet (updateCache st h survey (.error status) partsResp).1.surveys
        survey.enketoId = none ∧
      (∀ e, e ≠ survey.enketoId →
        surveyGet (updateCache st h survey (.error status) partsResp).1.surveys e
          = surveyGet st.surveys e) ∧
      (updateCache st h survey (.error status) partsResp).1.records = st.records ∧
      (updateCache st h survey (.error status) partsResp).2.1 = h ∧
      (updateCache st h survey (.error status) partsResp).2.2 = []) ∧
    (¬ (status = 404 ∨ status = 401) →
      updateCache st h survey (.error status) partsResp = (st, h, [])) := by
  constructor
  · intro hs
    have hshape : updateCache st h survey (.error status) partsResp
        = ({ st with surveys := surveyRemove st.surveys survey.enketoId }, h, []) := by
      simp [updateCache, updateCacheCatch, hs]
    rw [hshape]
    refine ⟨surveyGet_surveyRemove_self st.surveys survey.enketoId, ?_, rfl, rfl, rfl⟩
    intro e he
    exact surveyGet_surveyRemove_other st.surveys survey.enketoId e he
  · intro hs
    simp [updateCache, updateCacheCatch, hs]

/-- C6 counterexample: at a concrete 404 failure the survey is evicted
but the emitted event list is empty — in particular no removed
notification is dispatched, contrary to the claim (the code has only a
TODO comment and a console log there). -/
theorem c6_counterexample_no_removed_event :
    surveyGet
      (updateCache { surveys := [surveyA], records := [userRecA] }
        (some "abc123") surveyA (.error 404) (.ok surveyA)).1.surveys "a" = none ∧
    (updateCache { surveys := [surveyA], records := [userRecA] }
      (some "abc123") surveyA (.error 404) (.ok surveyA)).2.2 = [] := by
  constructor
  · decide
  · decide

/-- C6 witness: the amended theorem applied at a concrete offline-style
failure (status 0): everything is left unchanged. -/
theorem c6_hash_failure_eviction_witness :
    updateCache { surveys := [surveyA], records := [] }
      (some "abc123") surveyA (.error 0) (.error 0)
    = ({ surveys := [surveyA], records := [] }, some "abc123", []) :=
  (c6_hash_failure_eviction
    { surveys := [surveyA], records := [] }
    (some "abc123") surveyA 0 (.error 0)).2 (by decide)

/-- C2: for every survey and every sequence of last-saved writes, after
`setLastSavedRecord` completes there is exactly one last-saved record for
that survey; it is stored under the deterministic instance id derived
from the survey id (the string `__lastSaved_` followed by the enketoId,
the same across sessions since the id is a pure function of the survey
id); and the last-saved sentinel id is never included in uploads. -/
theorem c2_lastSaved_unique_deterministic_never_uploaded
    (records : RecordStore) (record : Record) (now : Nat) :
    ((setLastSavedRecord records record now).1.countP
        (fun r => decide (r.instanceId = getLastSavedInstanceId record.enketoId)) = 1) ∧
    getLastSavedRecord (setLastSavedRecord records record now).1 record.enketoId
      = some (setLastSavedRecord records record now).2.1 ∧
    getLastSavedInstanceId record.enketoId = "__lastSaved_" ++ record.enketoId ∧
    (∀ r ∈ uploadQueueRecords record.enketoId (setLastSavedRecord records record now).1,
      r.instanceId ≠ getLastSavedInstanceId record.enketoId) := by
  refine ⟨?_, ?_, rfl, ?_⟩
  · unfold setLastSavedRecord recordSet recordRemove
    rw [List.countP_append, countP_filter_ne_eq_zero]
    simp
  · unfold setLastSavedRecord getLastSavedRecord recordGet recordSet recordRemove
    rw [List.find?_append, find?_filter_ne_eq_none]
    simp
  · intro r hr
    unfold uploadQueueRecords at hr
    rw [List.mem_filter] at hr
    have h := hr.2
    simp only [decide_eq_true_eq] at h
    exact h.2.2

/-- C3 (the behavior of the code at the failing input): the claim and the
repository's own test (test/client/records/last-saved.spec.js,
`does not create a last-saved record when the record was encrypted`)
require that no last-saved snapshot is created for an encrypted record,
but `setLastSavedRecord` performs the write unconditionally: for a
non-draft record standing for the encryptor's output on survey
`surveyA`, a snapshot exists under the deterministic id afterwards. -/
theorem c3_encrypted_record_still_writes_snapshot :
    getLastSavedRecord
      (setLastSavedRecord []
        { instanceId := "recordA", enketoId := "surveyA", name := "name A",
          xml := "<data encrypted=encrypted><base64EncryptedKey/></data>",
          draft := false } 17).1
      "surveyA"
    = some
      { instanceId := "__lastSaved_surveyA", enketoId := "surveyA",
        name := "__lastSaved_17",
        xml := "<data encrypted=encrypted><base64EncryptedKey/></data>",
        draft := false } := by
  decide

/-- C5 (amended): `_findFormAddInfo` fails with the 404 NotFound error
exactly when no formList entry formID string-equals the requested id;
when it succeeds, the returned form info is a matching entry — namely
the first entry whose formID matches (the walk stops at the first
match), not necessarily a unique one. -/
theorem c5_findFormAddInfo_first_match
    (formListObj : Option (List RawXForm)) (openRosaId : String) :
    (findFormAddInfo formListObj openRosaId = .error 404 ↔
      ∀ xforms, formListObj = some xforms →
        ∀ x ∈ xforms, formIDString x ≠ openRosaId) ∧
    (∀ info, findFormAddInfo formListObj openRosaId = .ok info →
      ∃ xforms, formListObj = some xforms ∧
        ∃ x, x ∈ xforms ∧ formIDString x = openRosaId ∧ info = simplifyXForm x) ∧
    (∀ xforms x, formListObj = some xforms →
      xforms.find? (fun t => formIDString t = openRosaId) = some x →
      findFormAddInfo formListObj openRosaId = .ok (simplifyXForm x)) := by
  cases formListObj with
  | none =>
    refine ⟨?_, ?_, ?_⟩
    · simp [findFormAddInfo]
    · intro info h
      simp [findFormAddInfo] at h
    · intro xforms x h
      exact absurd h (by simp)
  | some xforms =>
    cases hfind : xforms.find? (fun t => decide (formIDString t = openRosaId)) with
    | none =>
      refine ⟨?_, ?_, ?_⟩
      · constructor
        · intro _ l hl x hx
          cases hl
          have := List.find?_eq_none.mp hfind x hx
          simpa using this
        · intro _
          simp [findFormAddInfo, hfind]
      · intro info h
        simp [findFormAddInfo, hfind] at h
      · intro l x hl hfx
        cases hl
        rw [hfind] at hfx
        cases hfx
    | some x =>
      have hx : x ∈ xforms := List.mem_of_find?_eq_some hfind
      have hpx : formIDString x = openRosaId := by
        have := List.find?_some hfind
        simpa using this
      refine ⟨?_, ?_, ?_⟩
      · constructor
        · intro h
          simp [findFormAddInfo, hfind] at h
        · intro h
          exact absurd hpx (h xforms rfl x hx)
      · intro info h
        simp only [findFormAddInfo, hfind] at h
        exact ⟨xforms, rfl, x, hx, hpx, by
          cases h
          rfl⟩
      · intro l y hl hfy
        cases hl
        rw [hfind] at hfy
        cases hfy
        simp [findFormAddInfo, hfind]

/-- C5 witness: the amended theorem applied at a formList holding one
matching entry. -/
theorem c5_findFormAddInfo_first_match_witness :
    findFormAddInfo (some [rawXFormA]) "f1" = .ok (simplifyXForm rawXFormA) :=
  (c5_findFormAddInfo_first_match (some [rawXFormA]) "f1").2.2 [rawXFormA]
    rawXFormA rfl (by decide)

/-- C5 counterexample: a formList with two entries whose formID both
string-equal the requested id f1.  The claim requires a NotFoundError
unless exactly one entry matches, but the code succeeds and returns the
first matching entry. -/
theorem c5_counterexample_duplicate_formID :
    findFormAddInfo (some [rawXFormA, rawXFormB]) "f1"
      = .ok (simplifyXForm rawXFormA) := by
  rfl

/-- C9: `getManifest` resolves with the simplified manifest entries in
document order, and resolves with the empty list, without failing, when
the survey has no manifest URL or the parsed document lacks the
manifest mediaFile structure (malformed entries). -/
theorem c9_getManifest_tolerant
    (info : Option SurveyInfo) (resp : Except Nat ManifestDoc) :
    (info = none → getManifest info resp = .ok []) ∧
    (∀ i, info = some i → i.manifestUrl = "" → getManifest info resp = .ok []) ∧
    (∀ i obj, info = some i → i.manifestUrl ≠ "" → resp = .ok obj →
      obj.mediaFile = none → getManifest info resp = .ok []) ∧
    (∀ i obj files, info = some i → i.manifestUrl ≠ "" → resp = .ok obj →
      obj.mediaFile = some files →
      ∃ l, getManifest info resp = .ok l ∧
        ∀ j : Nat, l[j]? = (files[j]?).map simplifyMediaFile) := by
  refine ⟨?_, ?_, ?_, ?_⟩
  · intro h
    rw [h]
    rfl
  · intro i hi hurl
    rw [hi]
    simp [getManifest, hurl]
  · intro i obj hi hurl hresp hmf
    rw [hi, hresp]
    simp [getManifest, hurl, hmf]
  · intro i obj files hi hurl hresp hmf
    rw [hi, hresp]
    refine ⟨files.map simplifyMediaFile, ?_, ?_⟩
    · simp [getManifest, hurl, hmf]
    · intro j
      simp

/-- C9 witness: the tolerance theorem applied at a survey with a
manifest URL whose parsed document holds one mediaFile entry. -/
theorem c9_getManifest_tolerant_witness :
    ∃ l, getManifest (some infoWithManifest) (.ok { mediaFile := some [rawMediaA] })
        = .ok l ∧
      ∀ j : Nat, l[j]? = ([rawMediaA][j]?).map simplifyMediaFile :=
  (c9_getManifest_tolerant (some infoWithManifest)
    (.ok { mediaFile := some [rawMediaA] })).2.2.2 infoWithManifest
    { mediaFile := some [rawMediaA] } [rawMediaA] rfl (by decide) rfl rfl

/-- C7: on activation of a new cache-process version, every cache
partition except the current forms partition is deleted — the forms
partition, with every entry in it, is unchanged — and the worker claims
the open pages. -/
theorem c7_activation_drops_stale_partitions (ws : WorkerState) :
    (onActivate ws).controlled = true ∧
    ((onActivate ws).cacheStorage.find? (fun c => c.1 = FORMS_CACHE)
      = ws.cacheStorage.find? (fun c => c.1 = FORMS_CACHE)) ∧
    (∀ name, name ≠ FORMS_CACHE →
      (onActivate ws).cacheStorage.find? (fun c => c.1 = name) = none) := by
  refine ⟨rfl, ?_, ?_⟩
  · simp only [onActivate, removeStaleCaches]
    exact find?_filter_same ws.cacheStorage FORMS_CACHE
  · intro name hname
    simp only [onActivate, removeStaleCaches]
    exact find?_filter_other ws.cacheStorage FORMS_CACHE name hname

/-- C7 witness: activation of a worker over a storage holding the forms
partition, the static partition and a leftover partition keeps exactly
the forms partition and claims the clients. -/
theorem c7_activation_drops_stale_partitions_witness :
    (onActivate
      { cacheStorage :=
          [(STATIC_CACHE, []), (FORMS_CACHE, [("u", shellResp)]), ("leftover", [])],
        controlled := false }).controlled = true ∧
    (onActivate
      { cacheStorage :=
          [(STATIC_CACHE, []), (FORMS_CACHE, [("u", shellResp)]), ("leftover", [])],
        controlled := false }).cacheStorage.find? (fun c => c.1 = FORMS_CACHE)
      = some (FORMS_CACHE, [("u", shellResp)]) ∧
    (onActivate
      { cacheStorage :=
          [(STATIC_CACHE, []), (FORMS_CACHE, [("u", shellResp)]), ("leftover", [])],
        controlled := false }).cacheStorage.find? (fun c => c.1 = STATIC_CACHE)
      = none := by
  have h := c7_activation_drops_stale_partitions
    { cacheStorage :=
        [(STATIC_CACHE, []), (FORMS_CACHE, [("u", shellResp)]), ("leftover", [])],
      controlled := false }
  refine ⟨h.1, ?_, h.2.2 STATIC_CACHE (by decide)⟩
  rw [h.2.1]
  decide

/-- C4 (amended): a CHECK_FORM_HASH check replies to the sender, with
the same surveyId, provided the cache holds the transform response of
the form: FORM_UPDATE_UNKNOWN on any failure thrown during the check
(fetch or json parsing), FORM_UP_TO_DATE exactly when both hash values
are present and equal, FORM_UPDATED otherwise (differing or absent hash
values).  When the cached transform response is absent and nothing
throws, no reply at all is sent. -/
theorem c4_checkFormHash_reply_cases
    (cs : SWCacheStorage) (enketoId url : String)
    (fetchResult : Option SWResponse) :
    (∀ m, checkFormHash cs enketoId url fetchResult = some m →
      m.enketoId = enketoId) ∧
    (fetchResult = none →
      checkFormHash cs enketoId url fetchResult
        = some ⟨.FORM_UPDATE_UNKNOWN, enketoId⟩) ∧
    (∀ resp, fetchResult = some resp →
      cachesMatch cs
          (replaceFirst (replaceFirst url "/x/" "/transform/xform/hash/")
            "/hash/" "/") = none →
      checkFormHash cs enketoId url fetchResult = none) ∧
    (∀ resp c, fetchResult = some resp →
      cachesMatch cs
          (replaceFirst (replaceFirst url "/x/" "/transform/xform/hash/")
            "/hash/" "/") = some c →
      ((resp.jsonHash = none ∨ c.jsonHash = none →
        checkFormHash cs enketoId url fetchResult
          = some ⟨.FORM_UPDATE_UNKNOWN, enketoId⟩) ∧
      (∀ h hc, resp.jsonHash = some h → c.jsonHash = some hc →
        ((checkFormHash cs enketoId url fetchResult
            = some ⟨.FORM_UP_TO_DATE, enketoId⟩) ↔ ∃ v, h = some v ∧ hc = some v) ∧
        ((checkFormHash cs enketoId url fetchResult
            = some ⟨.FORM_UPDATED, enketoId⟩) ↔ ¬ ∃ v, h = some v ∧ hc = some v)))) := by
  cases hf : fetchResult with
  | none =>
    refine ⟨?_, fun _ => rfl, ?_, ?_⟩
    · intro m hm
      simp only [checkFormHash] at hm
      cases hm
      rfl
    · intro resp h
      cases h
    · intro resp c h
      cases h
  | some resp0 =>
    cases hmt : cachesMatch cs
        (replaceFirst (replaceFirst url "/x/" "/transform/xform/hash/")
          "/hash/" "/") with
    | none =>
      refine ⟨?_, ?_, ?_, ?_⟩
      · intro m hm
        simp only [checkFormHash, hmt] at hm
        exact Option.noConfusion hm
      · intro h
        cases h
      · intro resp h _
        simp only [checkFormHash, hmt]
      · intro resp c _ hc
        exact Option.noConfusion hc
    | some c0 =>
      have hall : ∀ m, checkFormHash cs enketoId url (some resp0) = some m →
          m.enketoId = enketoId := by
        intro m hm
        cases hr : resp0.jsonHash with
        | none =>
          simp only [checkFormHash, hmt, hr] at hm
          cases hm
          rfl
        | some h =>
          cases hrc : c0.jsonHash with
          | none =>
            simp only [checkFormHash, hmt, hr, hrc] at hm
            cases hm
            rfl
          | some hcv =>
            simp only [checkFormHash, hmt, hr, hrc] at hm
            cases hm
            rfl
      refine ⟨hall, ?_, ?_, ?_⟩
      · intro h
        cases h
      · intro resp h hnone
        exact Option.noConfusion hnone
      · intro resp c hresp hsome
        injection hresp with hresp2
        subst hresp2
        injection hsome with hcc2
        subst hcc2
        constructor
        · intro hj
          rcases hj with hj | hj
          · simp [checkFormHash, hmt, hj]
          · cases hr : resp0.jsonHash with
            | none => simp [checkFormHash, hmt, hr]
            | some h => simp [checkFormHash, hmt, hr, hj]
        · intro h hc hj hjc
          cases h with
          | none =>
            simp [checkFormHash, hmt, hj, hjc]
          | some v =>
            cases hc with
            | none => simp [checkFormHash, hmt, hj, hjc]
            | some w =>
              by_cases hvw : v = w
              · subst hvw
                simp [checkFormHash, hmt, hj, hjc]
              · simp [checkFormHash, hmt, hj, hjc, hvw, Ne.symm hvw]

/-- C4 witness: the amended theorem applied at a thrown hash fetch: the
reply is FORM_UPDATE_UNKNOWN carrying the same survey id. -/
theorem c4_checkFormHash_reply_cases_witness :
    checkFormHash [] "idA" "https://example.com/-/x/idA" none
      = some ⟨.FORM_UPDATE_UNKNOWN, "idA"⟩ :=
  (c4_checkFormHash_reply_cases [] "idA" "https://example.com/-/x/idA" none).2.1 rfl

/-- C4 counterexample: a CHECK_FORM_HASH check on a form whose transform
response is not in the cache: the fresh hash fetch succeeds, nothing
throws, and no reply at all is posted — the claim requires a reply with
exactly one of the three message types for every received message. -/
theorem c4_counterexample_silent_when_uncached :
    checkFormHash [] "idA" "https://example.com/-/x/idA" (some hashResp) = none := by
  rfl

/-- C8 (amended): for a shell (form page) request, the cache is
consulted under the normalized shell key only: when that entry exists
the cached shell is served with no network fetch, whether or not the
sentinel entry for the request URL is present; when it is absent the
network is consulted, and on a successful basic 200 response the
sentinel 204 entry is written for the full request URL (in the forms
partition) in the same step as the shell itself (under the normalized
key, in the static partition) — immediately, not after the shell's
sub-resources finish caching. -/
theorem c8_shell_cache_and_sentinel
    (swURL : String) (r : SWRequest) (cs : SWCacheStorage)
    (net : Option SWResponse) (pf : List (String × SWResponse))
    (hfp : isFormPagePath r.pathname = true)
    (href : r.referrer = "" ∨ r.referrer = r.url) :
    (∀ c, cachesMatch cs (formPageCacheKey r.url) = some c →
      (onFetch swURL r cs net pf).1 = some c ∧
      (onFetch swURL r cs net pf).2.2 = false) ∧
    (∀ resp, cachesMatch cs (formPageCacheKey r.url) = none →
      net = some resp → resp.status = 200 → resp.rtype = .basic →
      r.url ≠ swURL →
      cacheStorageKey r.url = FORMS_CACHE →
      cacheStorageKey (formPageCacheKey r.url) = STATIC_CACHE →
      (onFetch swURL r cs net pf).1 = some resp ∧
      (onFetch swURL r cs net pf).2.2 = true ∧
      cacheGet (onFetch swURL r cs net pf).2.1 FORMS_CACHE r.url
        = some sentinelResponse ∧
      cacheGet (onFetch swURL r cs net pf).2.1 STATIC_CACHE
        (formPageCacheKey r.url) = some resp) := by
  constructor
  · intro c hc
    by_cases hguard : c.status ≠ 200 ∨ (c.rtype ≠ .basic ∧ c.rtype ≠ .default)
    · constructor <;> simp [onFetch, hfp, href, hc, hguard]
    · by_cases h204 : c.status = 204
      · constructor <;> simp [onFetch, hfp, href, hc, hguard, h204]
      · constructor <;> simp [onFetch, hfp, href, hc, hguard, h204]
  · intro resp hnone hnet hstatus hrtype hsw hforms hstatic
    have hshape : onFetch swURL r cs net pf
        = (some resp,
           cachesOpenPut
             (cachesOpenPut cs FORMS_CACHE r.url sentinelResponse)
             STATIC_CACHE (formPageCacheKey r.url) resp,
           true) := by
      rw [show (cachesOpenPut (cachesOpenPut cs FORMS_CACHE r.url sentinelResponse)
            STATIC_CACHE (formPageCacheKey r.url) resp)
          = cacheResponse (cacheResponse cs r.url sentinelResponse)
              (formPageCacheKey r.url) resp from by
        simp [cacheResponse, hforms, hstatic]]
      simp [onFetch, hfp, href, hnone, hnet, hstatus, hrtype, hsw]
    rw [hshape]
    have hne : FORMS_CACHE ≠ STATIC_CACHE := by decide
    refine ⟨rfl, rfl, ?_, ?_⟩
    · rw [cacheGet_cachesOpenPut_other _ _ _ _ _ _ hne]
      exact cacheGet_cachesOpenPut_self cs FORMS_CACHE r.url sentinelResponse
    · exact cacheGet_cachesOpenPut_self _ STATIC_CACHE (formPageCacheKey r.url) resp

/-- C8 witness: the amended theorem applied at a concrete first visit of
a form page while online: the shell response is served and both the
sentinel (forms partition) and the shell (static partition, normalized
key) are cached. -/
theorem c8_shell_cache_and_sentinel_witness :
    (onFetch swScriptURLFix formPageReq [] (some shellResp) []).1 = some shellResp ∧
    (onFetch swScriptURLFix formPageReq [] (some shellResp) []).2.2 = true ∧
    cacheGet (onFetch swScriptURLFix formPageReq [] (some shellResp) []).2.1
      FORMS_CACHE "https://example.com/-/x/abc" = some sentinelResponse ∧
    cacheGet (onFetch swScriptURLFix formPageReq [] (some shellResp) []).2.1
      STATIC_CACHE "https://example.com/-/x/" = some shellResp := by
  have h := (c8_shell_cache_and_sentinel swScriptURLFix formPageReq []
    (some shellResp) [] (by decide) (Or.inl (by decide))).2 shellResp rfl rfl rfl rfl
    (by decide) (by decide) (by decide)
  exact h

/-- C8 counterexample: a form page request whose sentinel entry is
absent (the cache holds only the shell under the normalized key) while
the device is offline (a network fetch would fail): the worker serves
the cached shell without any network fetch, so a missing sentinel is
not treated as not-yet-cached and does not force a network fetch. -/
theorem c8_counterexample_sentinel_not_consulted :
    (onFetch swScriptURLFix formPageReq
      [(STATIC_CACHE, [("https://example.com/-/x/", shellResp)])] none []).1
      = some shellResp ∧
    (onFetch swScriptURLFix formPageReq
      [(STATIC_CACHE, [("https://example.com/-/x/", shellResp)])] none []).2.2
      = false := by
  constructor
  · rfl
  · rfl

/-- C10: `getMediaURL` is idempotent and cache-stable: a `blob:` input
is returned unchanged with the state untouched; for a `data:` URL two
calls return the same URL and the second call leaves the state
unchanged (the conversion is cached on first use); and after
`resetMediaURLCache` the next call for the same `data:` URL mints and
returns a fresh object URL, different from the earlier result.  The
state is assumed well-formed (`MediaWF`): cached object URLs were
minted by earlier counter values, as `URL.createObjectURL` guarantees. -/
theorem c10_getMediaURL_cache_stable
    (st : MediaURLState) (dataURL blobInput : String)
    (hWF : MediaWF st)
    (hdata : strStartsWith dataURL "data:" = true)
    (hnb : strStartsWith dataURL "blob:" = false)
    (hblob : strStartsWith blobInput "blob:" = true) :
    getMediaURL st blobInput = (some blobInput, st) ∧
    (getMediaURL st dataURL).1.isSome = true ∧
    getMediaURL (getMediaURL st dataURL).2 dataURL = getMediaURL st dataURL ∧
    (getMediaURL (resetMediaURLCache (getMediaURL st dataURL).2) dataURL).1
      = some (objectURL (getMediaURL st dataURL).2.nextObjectURL) ∧
    (getMediaURL (resetMediaURLCache (getMediaURL st dataURL).2) dataURL).1
      ≠ (getMediaURL st dataURL).1 := by
  have hpass : getMediaURL st blobInput = (some blobInput, st) := by
    simp [getMediaURL, hblob]
  have hfresh : ∀ s' : MediaURLState,
      (getMediaURL (resetMediaURLCache s') dataURL).1
        = some (objectURL s'.nextObjectURL) := by
    intro s'
    simp [getMediaURL, resetMediaURLCache, mapGet, hnb, hdata, dataURLToBlobURL]
  cases hget : mapGet st.cache dataURL with
  | some v =>
    have h1 : getMediaURL st dataURL = (some v, st) := by
      simp [getMediaURL, hnb, hget]
    refine ⟨hpass, ?_, ?_, ?_, ?_⟩
    · rw [h1]
      rfl
    · rw [h1]
      exact h1
    · rw [h1]
      exact hfresh st
    · rw [h1, hfresh st]
      intro heq
      injection heq with heq2
      have hv : v = objectURL st.nextObjectURL := heq2.symm
      unfold mapGet at hget
      rcases Option.map_eq_some'.mp hget with ⟨e, hfind, hev⟩
      have hmem : e ∈ st.cache := List.mem_of_find?_eq_some hfind
      have hlt := hWF e hmem st.nextObjectURL (by rw [hev, hv])
      exact absurd hlt (lt_irrefl _)
  | none =>
    have h1 : getMediaURL st dataURL
        = (some (objectURL st.nextObjectURL),
           { cache := mapSet (mapSet st.cache dataURL (objectURL st.nextObjectURL))
               dataURL (objectURL st.nextObjectURL),
             nextObjectURL := st.nextObjectURL + 1 }) := by
      simp [getMediaURL, hnb, hget, hdata, dataURLToBlobURL]
    refine ⟨hpass, ?_, ?_, ?_, ?_⟩
    · rw [h1]
      rfl
    · rw [h1]
      simp [getMediaURL, hnb, mapGet_mapSet_self]
    · rw [h1, hfresh _]
    · rw [h1, hfresh _]
      intro heq
      injection heq with heq2
      have h3 := objectURL_injective heq2
      simp at h3

/-- C10 witness: the cache-stability theorem applied at the empty media
cache, a concrete `data:` URL and a concrete `blob:` URL. -/
theorem c10_getMediaURL_cache_stable_witness :
    getMediaURL { cache := [], nextObjectURL := 0 } "blob:x"
      = (some "blob:x", { cache := [], nextObjectURL := 0 }) ∧
    (getMediaURL
      (resetMediaURLCache
        (getMediaURL { cache := [], nextObjectURL := 0 }
          "data:text/plain,hi").2) "data:text/plain,hi").1
      ≠ (getMediaURL { cache := [], nextObjectURL := 0 } "data:text/plain,hi").1 := by
  have h := c10_getMediaURL_cache_stable { cache := [], nextObjectURL := 0 }
    "data:text/plain,hi" "blob:x"
    (by intro p hp k hk; exact absurd hp (List.not_mem_nil p))
    (by decide) (by decide) (by decide)
  exact ⟨h.1, h.2.2.2.2⟩

end Enketo
